import Mathlib

/-!
Verification of the caching / dispatch layer of `tex2typst` (the Python
wrapper in `src/tex2typst/__init__.py`).

The wrapper sits between callers and an external conversion engine
(`_tex2typst_core`, a compiled extension).  We embed the wrapper faithfully:

* `make_hashable`  — `_make_hashable`: sort a macro dict's items (Python
  `sorted` on `(trigger, expansion)` tuples) or keep `None`.
* `CacheState`     — the state of one `functools.lru_cache` instance
  (entries most-recently-used first, hit/miss counters, fixed `maxsize`).
* `tex2typst_cached` / `typst2tex_cached` — the two `@lru_cache`-wrapped
  internal functions.
* `tex2typst` / `typst2tex` — the public operations with their
  str / list / otherwise dispatch.
* `clear_cache`, `cache_info` — the introspection operations.

The engine itself is not part of the wrapper's source; it appears as an
abstract record of four functions (`Core`), and the whole system state
(`SysState`) additionally counts how often each engine entry point is
invoked, so that "the engine is (not) called" is expressible.
-/

namespace T2T

abbrev Macros := List (String × String)

/-- Python's comparison on `(trigger, expansion)` tuples: lexicographic,
first component first. -/
def pairLe (a b : String × String) : Prop :=
  a.1 < b.1 ∨ (a.1 = b.1 ∧ a.2 ≤ b.2)

instance : DecidableRel pairLe := fun a b => by
  unfold pairLe; infer_instance

instance : IsTotal (String × String) pairLe := by
  constructor
  intro a b
  rcases lt_trichotomy a.1 b.1 with h | h | h
  · exact Or.inl (Or.inl h)
  · rcases le_total a.2 b.2 with h2 | h2
    · exact Or.inl (Or.inr ⟨h, h2⟩)
    · exact Or.inr (Or.inr ⟨h.symm, h2⟩)
  · exact Or.inr (Or.inl h)

instance : IsTrans (String × String) pairLe := by
  constructor
  intro a b c hab hbc
  rcases hab with h | ⟨he, h2⟩
  · rcases hbc with h' | ⟨he', _⟩
    · exact Or.inl (h.trans h')
    · exact Or.inl (he' ▸ h)
  · rcases hbc with h' | ⟨he', h2'⟩
    · exact Or.inl (he ▸ h')
    · exact Or.inr ⟨he.trans he', h2.trans h2'⟩

instance : IsAntisymm (String × String) pairLe := by
  constructor
  intro a b hab hba
  rcases hab with h | ⟨he, h2⟩
  · rcases hba with h' | ⟨he', _⟩
    · exact absurd h' (lt_asymm h)
    · exact absurd h (he' ▸ lt_irrefl _)
  · rcases hba with h' | ⟨_, h2'⟩
    · exact absurd h' (he ▸ lt_irrefl _)
    · exact Prod.ext he (le_antisymm h2 h2')

/-- `sorted(d.items())`: Python's stable sort under tuple comparison. -/
def sortPairs (l : Macros) : Macros := l.insertionSort pairLe

/-- `_make_hashable(d)`: `tuple(sorted(d.items())) if d is not None else None`. -/
def make_hashable (d : Option Macros) : Option Macros := d.map sortPairs

/-- State of one `functools.lru_cache` wrapper: entries are ordered
most-recently-used first; `hits`, `misses` and the fixed `maxsize` mirror
`cache_info()`. -/
structure CacheState (κ : Type) where
  entries : List (κ × String)
  hits : Nat
  misses : Nat
  maxsize : Nat
deriving DecidableEq

/-- Value stored under key `k`, if present. -/
def CacheState.find [DecidableEq κ] (c : CacheState κ) (k : κ) : Option String :=
  (c.entries.find? fun e => decide (e.1 = k)).map Prod.snd

/-- One lookup by `lru_cache`: a hit bumps `hits` and moves the entry to the
front (most-recently-used); a miss bumps `misses` and changes nothing else. -/
def CacheState.read [DecidableEq κ] (c : CacheState κ) (k : κ) :
    Option String × CacheState κ :=
  match c.find k with
  | some v =>
      (some v,
       ⟨(k, v) :: c.entries.filter (fun e => !decide (e.1 = k)),
        c.hits + 1, c.misses, c.maxsize⟩)
  | none => (none, ⟨c.entries, c.hits, c.misses + 1, c.maxsize⟩)

/-- Insertion after a successful underlying call: the new entry becomes
most-recently-used and the least-recently-used entry is evicted if the
cache would exceed `maxsize`. -/
def CacheState.store [DecidableEq κ] (c : CacheState κ) (k : κ) (v : String) :
    CacheState κ :=
  ⟨((k, v) :: c.entries.filter (fun e => !decide (e.1 = k))).take c.maxsize,
   c.hits, c.misses, c.maxsize⟩

/-- `cache_clear()`: entries gone, counters reset, `maxsize` kept. -/
def CacheState.clear (c : CacheState κ) : CacheState κ := ⟨[], 0, 0, c.maxsize⟩

/-- The named tuple returned by `lru_cache`'s `cache_info()`. -/
structure CacheInfo where
  hits : Nat
  misses : Nat
  maxsize : Nat
  currsize : Nat
deriving DecidableEq

/-- `cache_info()` of one cache. -/
def CacheState.info (c : CacheState κ) : CacheInfo :=
  ⟨c.hits, c.misses, c.maxsize, c.entries.length⟩

/-- The keyword options of the forward direction; `none` is Python `None`
(argument left unset).  `custom_tex_macros` is an insertion-ordered
association list, as a Python `dict` is. -/
structure ForwardOptions where
  non_strict : Option Bool
  prefer_shorthands : Option Bool
  keep_spaces : Option Bool
  frac_to_slash : Option Bool
  infty_to_oo : Option Bool
  optimize : Option Bool
  custom_tex_macros : Option Macros
deriving DecidableEq

/-- The positional argument tuple of `_tex2typst_cached`, which `lru_cache`
uses as the cache key (macros already flattened by `_make_hashable`). -/
structure FwdKey where
  tex : String
  non_strict : Option Bool
  prefer_shorthands : Option Bool
  keep_spaces : Option Bool
  frac_to_slash : Option Bool
  infty_to_oo : Option Bool
  optimize : Option Bool
  custom_tex_macros : Option Macros
deriving DecidableEq

/-- The argument tuple of `_typst2tex_cached`. -/
structure BwdKey where
  typst : String
  block_math_mode : Option Bool
deriving DecidableEq

/-- The consumed interface of the external engine `_tex2typst_core`:
scalar and batch entry points per direction.  Errors carry the engine's
diagnostic message. -/
structure Core where
  tex2typst : String → ForwardOptions → Except String String
  tex2typst_batch : List String → ForwardOptions → Except String (List String)
  typst2tex : String → Option Bool → Except String String
  typst2tex_batch : List String → Option Bool → Except String (List String)

/-- `dict(custom_tex_macros) if custom_tex_macros else None` inside
`_tex2typst_cached`: Python truthiness sends both `None` and the empty
tuple to `None`. -/
def truthyMacros : Option Macros → Option Macros
  | none => none
  | some [] => none
  | some l => some l

/-- The cache key built by the scalar `tex2typst` path. -/
def fwdKey (tex : String) (o : ForwardOptions) : FwdKey :=
  ⟨tex, o.non_strict, o.prefer_shorthands, o.keep_spaces, o.frac_to_slash,
   o.infty_to_oo, o.optimize, make_hashable o.custom_tex_macros⟩

/-- The options `_tex2typst_cached` forwards to the engine on a miss. -/
def fwdEngineOpts (k : FwdKey) : ForwardOptions :=
  ⟨k.non_strict, k.prefer_shorthands, k.keep_spaces, k.frac_to_slash,
   k.infty_to_oo, k.optimize, truthyMacros k.custom_tex_macros⟩

/-- Whole-module state: the two lru caches plus counters of how often each
engine entry point has been invoked (instrumentation for frame properties). -/
structure SysState where
  fwdCache : CacheState FwdKey
  bwdCache : CacheState BwdKey
  fwdScalarCalls : Nat
  fwdBatchCalls : Nat
  bwdScalarCalls : Nat
  bwdBatchCalls : Nat
deriving DecidableEq

/-- The module's state right after import: both caches empty with
`maxsize=1024`, no engine call made yet. -/
def initState : SysState := ⟨⟨[], 0, 0, 1024⟩, ⟨[], 0, 0, 1024⟩, 0, 0, 0, 0⟩

/-- The exceptions this layer can surface: `TypeError` raised by the
wrapper itself, or an engine conversion error passed through. -/
inductive PyError where
  | typeError (msg : String)
  | conversionError (msg : String)
deriving DecidableEq

/-- Runtime shapes a caller may pass as the positional argument.  `str` and
`list` are the supported ones; `int`, `dict` and `tuple` stand for the
other runtime types of the claims. -/
inductive PyValue where
  | str (s : String)
  | list (l : List String)
  | int (n : Int)
  | dict (d : List (String × Int))
  | tuple (l : List String)
deriving DecidableEq

/-- `isinstance(x, str)`. -/
def PyValue.isStr : PyValue → Bool
  | .str _ => true
  | _ => false

/-- `isinstance(x, list)`. -/
def PyValue.isList : PyValue → Bool
  | .list _ => true
  | _ => false

/-- `type(x).__name__`. -/
def PyValue.typeName : PyValue → String
  | .str _ => "str"
  | .list _ => "list"
  | .int _ => "int"
  | .dict _ => "dict"
  | .tuple _ => "tuple"

/-- A successful conversion returns a string or a list of strings. -/
inductive PyResult where
  | str (s : String)
  | list (l : List String)
deriving DecidableEq

/-- `_tex2typst_cached`: the `lru_cache`-wrapped scalar conversion.  On a
hit the engine is not consulted; on a miss the engine runs (the call
counter increments), its success is stored, its failure propagates
uncached. -/
def tex2typst_cached (e : Core) (k : FwdKey) (σ : SysState) :
    Except PyError String × SysState :=
  let r := σ.fwdCache.read k
  match r.1 with
  | some v => (.ok v, { σ with fwdCache := r.2 })
  | none =>
      match e.tex2typst k.tex (fwdEngineOpts k) with
      | .ok out =>
          (.ok out,
           { σ with fwdCache := r.2.store k out,
                    fwdScalarCalls := σ.fwdScalarCalls + 1 })
      | .error m =>
          (.error (.conversionError m),
           { σ with fwdCache := r.2,
                    fwdScalarCalls := σ.fwdScalarCalls + 1 })

/-- `_typst2tex_cached`: the backward analogue. -/
def typst2tex_cached (e : Core) (k : BwdKey) (σ : SysState) :
    Except PyError String × SysState :=
  let r := σ.bwdCache.read k
  match r.1 with
  | some v => (.ok v, { σ with bwdCache := r.2 })
  | none =>
      match e.typst2tex k.typst k.block_math_mode with
      | .ok out =>
          (.ok out,
           { σ with bwdCache := r.2.store k out,
                    bwdScalarCalls := σ.bwdScalarCalls + 1 })
      | .error m =>
          (.error (.conversionError m),
           { σ with bwdCache := r.2,
                    bwdScalarCalls := σ.bwdScalarCalls + 1 })

/-- Public `tex2typst`: a `str` goes through the cache, a `list` goes to
the engine's batch entry point directly, anything else raises `TypeError`
before touching cache or engine. -/
def tex2typst (e : Core) (x : PyValue) (o : ForwardOptions) (σ : SysState) :
    Except PyError PyResult × SysState :=
  match x with
  | .str s =>
      let r := tex2typst_cached e (fwdKey s o) σ
      (r.1.map .str, r.2)
  | .list l =>
      match e.tex2typst_batch l o with
      | .ok outs =>
          (.ok (.list outs), { σ with fwdBatchCalls := σ.fwdBatchCalls + 1 })
      | .error m =>
          (.error (.conversionError m),
           { σ with fwdBatchCalls := σ.fwdBatchCalls + 1 })
  | v => (.error (.typeError ("Expected str or list, got " ++ v.typeName)), σ)

/-- Public `typst2tex`: same dispatch for the backward direction. -/
def typst2tex (e : Core) (x : PyValue) (b : Option Bool) (σ : SysState) :
    Except PyError PyResult × SysState :=
  match x with
  | .str s =>
      let r := typst2tex_cached e ⟨s, b⟩ σ
      (r.1.map .str, r.2)
  | .list l =>
      match e.typst2tex_batch l b with
      | .ok outs =>
          (.ok (.list outs), { σ with bwdBatchCalls := σ.bwdBatchCalls + 1 })
      | .error m =>
          (.error (.conversionError m),
           { σ with bwdBatchCalls := σ.bwdBatchCalls + 1 })
  | v => (.error (.typeError ("Expected str or list, got " ++ v.typeName)), σ)

/-- `clear_cache()`: clears both wrapped functions' caches. -/
def clear_cache (σ : SysState) : SysState :=
  { σ with fwdCache := σ.fwdCache.clear, bwdCache := σ.bwdCache.clear }

/-- `cache_info()`: the statistics of both directions. -/
def cache_info (σ : SysState) : CacheInfo × CacheInfo :=
  (σ.fwdCache.info, σ.bwdCache.info)

/-- A demonstration engine used for concrete witnesses: always succeeds,
tagging its input. -/
def demoCore : Core :=
  ⟨fun t _ => .ok ("T" ++ t),
   fun l _ => .ok (l.map fun t => "T" ++ t),
   fun t _ => .ok ("U" ++ t),
   fun l _ => .ok (l.map fun t => "U" ++ t)⟩

/-- A demonstration engine whose scalar entry points always fail. -/
def failCore : Core :=
  ⟨fun _ _ => .error "Conversion failed: bad input",
   fun _ _ => .error "Conversion failed: bad input",
   fun _ _ => .error "Conversion failed: bad input",
   fun _ _ => .error "Conversion failed: bad input"⟩

/-- All options unset, as a plain call without keywords passes them. -/
def noOpts : ForwardOptions := ⟨none, none, none, none, none, none, none⟩

/-- `o` with its `custom_tex_macros` field replaced. -/
def setMacros (o : ForwardOptions) (m : Option Macros) : ForwardOptions :=
  ⟨o.non_strict, o.prefer_shorthands, o.keep_spaces, o.frac_to_slash,
   o.infty_to_oo, o.optimize, m⟩

/-- Modelled from the spec: the engine's batch entry point
(`tex2typst_batch` lives in the compiled `_tex2typst_core`, not in the
wrapper's source) processes the texts in order with the same options and
the same scalar conversion, same length and order as the input, and a
single failing entry aborts the whole call with no partial results. -/
def SpecBatch (f : String → ForwardOptions → Except String String) :
    List String → ForwardOptions → Except String (List String)
  | [], _ => .ok []
  | x :: xs, o =>
      match f x o, SpecBatch f xs o with
      | .ok y, .ok ys => .ok (y :: ys)
      | .error m, _ => .error m
      | .ok _, .error m => .error m

/-- The macro mapping an optional macro dict denotes: absent means the
empty mapping, and insertion order is canonicalized away. -/
def canonMacros (m : Option Macros) : Macros := sortPairs (m.getD [])

/-- Two forward option sets that an engine consuming options semantically
cannot tell apart: equal scalar flags and macro arguments denoting the
same mapping. -/
def SemEq (o₁ o₂ : ForwardOptions) : Prop :=
  o₁.non_strict = o₂.non_strict ∧
  o₁.prefer_shorthands = o₂.prefer_shorthands ∧
  o₁.keep_spaces = o₂.keep_spaces ∧
  o₁.frac_to_slash = o₂.frac_to_slash ∧
  o₁.infty_to_oo = o₂.infty_to_oo ∧
  o₁.optimize = o₂.optimize ∧
  canonMacros o₁.custom_tex_macros = canonMacros o₂.custom_tex_macros

/-- Modelled from the spec: the engine's scalar entry point consumes
`custom_tex_macros` as a mapping "applied before parsing" — it cannot
observe the dict's insertion order, and an absent mapping behaves as the
empty one. -/
def MacroAgnostic (f : String → ForwardOptions → Except String String) : Prop :=
  ∀ t o₁ o₂, SemEq o₁ o₂ → f t o₁ = f t o₂

/-- Every forward cache entry holds exactly what the engine returns for
its key — the invariant every state reachable from an empty cache has,
the engine being a fixed pure function. -/
def FwdCoherent (e : Core) (σ : SysState) : Prop :=
  ∀ k v, σ.fwdCache.find k = some v →
    e.tex2typst k.tex (fwdEngineOpts k) = .ok v

/-- The scalar half of the demonstration engine. -/
def demoScalar : String → ForwardOptions → Except String String :=
  fun t _ => .ok ("T" ++ t)

/-- A demonstration engine whose batch entry point is exactly the
spec-modelled batch of its scalar entry point. -/
def specDemoCore : Core :=
  ⟨demoScalar, SpecBatch demoScalar, fun t _ => .ok t, fun l _ => .ok l⟩

/-! ### Helper lemmas -/

theorem sortPairs_eq_of_perm {l₁ l₂ : Macros} (h : l₁.Perm l₂) :
    sortPairs l₁ = sortPairs l₂ :=
  List.eq_of_perm_of_sorted
    ((List.perm_insertionSort _ _).trans (h.trans (List.perm_insertionSort _ _).symm))
    (List.sorted_insertionSort _ _)
    (List.sorted_insertionSort _ _)

theorem sortPairs_idem (l : Macros) : sortPairs (sortPairs l) = sortPairs l :=
  (List.sorted_insertionSort pairLe l).insertionSort_eq

theorem CacheState.find_eq_none_iff [DecidableEq κ] {c : CacheState κ} {k : κ} :
    c.find k = none ↔ ∀ p ∈ c.entries, ¬ p.1 = k := by
  simp [CacheState.find, List.find?_eq_none]

theorem CacheState.find_store_self [DecidableEq κ] (c : CacheState κ) (k : κ) (v : String)
    (h : 0 < c.maxsize) : (c.store k v).find k = some v := by
  obtain ⟨n, hn⟩ : ∃ n, c.maxsize = n + 1 := ⟨c.maxsize - 1, by omega⟩
  simp [CacheState.store, CacheState.find, hn, List.take_succ_cons, List.find?_cons]

/-- Unfolding `tex2typst` on a scalar argument. -/
theorem tex2typst_str (e : Core) (s : String) (o : ForwardOptions) (σ : SysState) :
    tex2typst e (.str s) o σ
      = ((tex2typst_cached e (fwdKey s o) σ).1.map .str,
         (tex2typst_cached e (fwdKey s o) σ).2) := rfl

/-- Unfolding `typst2tex` on a scalar argument. -/
theorem typst2tex_str (e : Core) (s : String) (b : Option Bool) (σ : SysState) :
    typst2tex e (.str s) b σ
      = ((typst2tex_cached e ⟨s, b⟩ σ).1.map .str,
         (typst2tex_cached e ⟨s, b⟩ σ).2) := rfl

/-- `_tex2typst_cached` on a hit: the cached value comes back, `hits` bumps,
the entry moves to the front, the engine is not consulted. -/
theorem tex2typst_cached_of_hit (e : Core) (k : FwdKey) (σ : SysState) (v : String)
    (hv : σ.fwdCache.find k = some v) :
    tex2typst_cached e k σ
      = (.ok v,
         { σ with
             fwdCache :=
               ⟨(k, v) :: σ.fwdCache.entries.filter (fun p => !decide (p.1 = k)),
                σ.fwdCache.hits + 1, σ.fwdCache.misses, σ.fwdCache.maxsize⟩ }) := by
  simp [tex2typst_cached, CacheState.read, hv]

/-- `_tex2typst_cached` on a miss with a successful engine call: `misses`
bumps, the engine runs once, the result is stored most-recently-used. -/
theorem tex2typst_cached_of_miss_ok (e : Core) (k : FwdKey) (σ : SysState) (v : String)
    (hmiss : σ.fwdCache.find k = none)
    (hv : e.tex2typst k.tex (fwdEngineOpts k) = .ok v) :
    tex2typst_cached e k σ
      = (.ok v,
         { σ with
             fwdCache :=
               (⟨σ.fwdCache.entries, σ.fwdCache.hits, σ.fwdCache.misses + 1,
                 σ.fwdCache.maxsize⟩ : CacheState FwdKey).store k v,
             fwdScalarCalls := σ.fwdScalarCalls + 1 }) := by
  simp [tex2typst_cached, CacheState.read, hmiss, hv]

/-- `_tex2typst_cached` on a miss with a failing engine call: the error
propagates, nothing is stored, only the miss is recorded. -/
theorem tex2typst_cached_of_miss_err (e : Core) (k : FwdKey) (σ : SysState) (m : String)
    (hmiss : σ.fwdCache.find k = none)
    (hm : e.tex2typst k.tex (fwdEngineOpts k) = .error m) :
    tex2typst_cached e k σ
      = (.error (.conversionError m),
         { σ with
             fwdCache :=
               ⟨σ.fwdCache.entries, σ.fwdCache.hits, σ.fwdCache.misses + 1,
                σ.fwdCache.maxsize⟩,
             fwdScalarCalls := σ.fwdScalarCalls + 1 }) := by
  simp [tex2typst_cached, CacheState.read, hmiss, hm]

/-- A key that is absent stays absent across a `store` under a different key
(eviction can only remove further entries). -/
theorem CacheState.find_store_none [DecidableEq κ] {c : CacheState κ} {k k' : κ} {v : String}
    (hne : ¬ k' = k) (h : c.find k = none) : (c.store k' v).find k = none := by
  rw [CacheState.find_eq_none_iff] at h ⊢
  intro p hp
  have hp' := List.take_subset _ _ hp
  rcases List.mem_cons.1 hp' with rfl | hf
  · exact hne
  · exact h p (List.mem_filter.1 hf).1

/-- A key that is absent stays absent across a lookup of any key. -/
theorem CacheState.find_read_none [DecidableEq κ] {c : CacheState κ} {k : κ} (k' : κ)
    (h : c.find k = none) : ((c.read k').2).find k = none := by
  unfold CacheState.read
  cases hf : c.find k' with
  | none => simpa [CacheState.find] using h
  | some v =>
      have hne : ¬ k' = k := by
        rintro rfl; rw [h] at hf; exact Option.noConfusion hf
      rw [CacheState.find_eq_none_iff] at h
      rw [CacheState.find_eq_none_iff]
      intro p hp
      rcases List.mem_cons.1 hp with rfl | hmem
      · exact hne
      · exact h p (List.mem_filter.1 hmem).1

/-- An absent key stays absent across one `_tex2typst_cached` call under a
different key, on every engine outcome. -/
theorem tex2typst_cached_preserves_none (e : Core) {k : FwdKey} (k' : FwdKey) (σ : SysState)
    (hne : ¬ k' = k) (h : σ.fwdCache.find k = none) :
    (tex2typst_cached e k' σ).2.fwdCache.find k = none := by
  cases hf : σ.fwdCache.find k' with
  | some v =>
      rw [tex2typst_cached_of_hit e k' σ v hf]
      rw [CacheState.find_eq_none_iff] at h ⊢
      intro p hp
      rcases List.mem_cons.1 hp with rfl | hmem
      · exact hne
      · exact h p (List.mem_filter.1 hmem).1
  | none =>
      cases he : e.tex2typst k'.tex (fwdEngineOpts k') with
      | ok v =>
          rw [tex2typst_cached_of_miss_ok e k' σ v hf he]
          exact CacheState.find_store_none hne
            (by rw [CacheState.find_eq_none_iff] at h ⊢; exact h)
      | error m =>
          rw [tex2typst_cached_of_miss_err e k' σ m hf he]
          rw [CacheState.find_eq_none_iff] at h ⊢
          exact h

/-- On a miss (whatever the engine does) `misses` bumps by one, `hits`
stays put and the engine's scalar entry point runs exactly once. -/
theorem tex2typst_cached_miss_stats (e : Core) (k : FwdKey) (σ : SysState)
    (h : σ.fwdCache.find k = none) :
    (tex2typst_cached e k σ).2.fwdCache.misses = σ.fwdCache.misses + 1 ∧
    (tex2typst_cached e k σ).2.fwdCache.hits = σ.fwdCache.hits ∧
    (tex2typst_cached e k σ).2.fwdScalarCalls = σ.fwdScalarCalls + 1 := by
  cases he : e.tex2typst k.tex (fwdEngineOpts k) with
  | ok v => rw [tex2typst_cached_of_miss_ok e k σ v h he]; exact ⟨rfl, rfl, rfl⟩
  | error m => rw [tex2typst_cached_of_miss_err e k σ m h he]; exact ⟨rfl, rfl, rfl⟩

/-- `_typst2tex_cached` on a miss with a failing engine call: the error
propagates, nothing is stored, only the miss is recorded. -/
theorem typst2tex_cached_of_miss_err (e : Core) (k : BwdKey) (σ : SysState) (m : String)
    (hmiss : σ.bwdCache.find k = none)
    (hm : e.typst2tex k.typst k.block_math_mode = .error m) :
    typst2tex_cached e k σ
      = (.error (.conversionError m),
         { σ with
             bwdCache :=
               ⟨σ.bwdCache.entries, σ.bwdCache.hits, σ.bwdCache.misses + 1,
                σ.bwdCache.maxsize⟩,
             bwdScalarCalls := σ.bwdScalarCalls + 1 }) := by
  simp [typst2tex_cached, CacheState.read, hmiss, hm]

/-- `_typst2tex_cached` on a miss: same shape as the forward direction. -/
theorem typst2tex_cached_miss_stats (e : Core) (k : BwdKey) (σ : SysState)
    (h : σ.bwdCache.find k = none) :
    (typst2tex_cached e k σ).2.bwdCache.misses = σ.bwdCache.misses + 1 ∧
    (typst2tex_cached e k σ).2.bwdCache.hits = σ.bwdCache.hits ∧
    (typst2tex_cached e k σ).2.bwdScalarCalls = σ.bwdScalarCalls + 1 := by
  cases he : e.typst2tex k.typst k.block_math_mode with
  | ok v =>
      refine ⟨?_, ?_, ?_⟩ <;>
        simp [typst2tex_cached, CacheState.read, CacheState.store, h, he]
  | error m =>
      refine ⟨?_, ?_, ?_⟩ <;>
        simp [typst2tex_cached, CacheState.read, h, he]

/-- A miss-then-store followed by the same key again: the second call is a
hit returning the stored engine output. -/
theorem tex2typst_cached_miss_then_hit (e : Core) (k : FwdKey) (σ : SysState) (v : String)
    (hmiss : σ.fwdCache.find k = none)
    (hv : e.tex2typst k.tex (fwdEngineOpts k) = .ok v)
    (hcap : 0 < σ.fwdCache.maxsize) :
    tex2typst_cached e k σ = (.ok v, (tex2typst_cached e k σ).2) ∧
    (tex2typst_cached e k ((tex2typst_cached e k σ).2)).1 = .ok v ∧
    (tex2typst_cached e k ((tex2typst_cached e k σ).2)).2.fwdCache.hits
      = (tex2typst_cached e k σ).2.fwdCache.hits + 1 ∧
    (tex2typst_cached e k ((tex2typst_cached e k σ).2)).2.fwdCache.misses
      = (tex2typst_cached e k σ).2.fwdCache.misses ∧
    (tex2typst_cached e k σ).2.fwdCache.misses = σ.fwdCache.misses + 1 := by
  have h₁ := tex2typst_cached_of_miss_ok e k σ v hmiss hv
  have hfind : (tex2typst_cached e k σ).2.fwdCache.find k = some v := by
    rw [h₁]
    exact CacheState.find_store_self _ k v hcap
  have h₂ := tex2typst_cached_of_hit e k ((tex2typst_cached e k σ).2) v hfind
  refine ⟨?_, ?_, ?_, ?_, ?_⟩
  · rw [h₁]
  · rw [h₂]
  · rw [h₂]
  · rw [h₂]
  · rw [h₁]; rfl

/-! ### Claims -/

/-- C1: calling the forward conversion twice in succession on the same
scalar input and options returns identical output both times, and — the
first call having been a miss (with the engine succeeding there) — the
second call increments the forward cache's hit counter by exactly one and
leaves its miss counter unchanged. -/
theorem tex2typst_repeat_hit (e : Core) (x : String) (o : ForwardOptions) (σ : SysState)
    (hmiss : σ.fwdCache.find (fwdKey x o) = none)
    (hok : ∃ v, e.tex2typst x (fwdEngineOpts (fwdKey x o)) = .ok v)
    (hcap : 0 < σ.fwdCache.maxsize) :
    (tex2typst e (.str x) o (tex2typst e (.str x) o σ).2).1
      = (tex2typst e (.str x) o σ).1 ∧
    (tex2typst e (.str x) o (tex2typst e (.str x) o σ).2).2.fwdCache.hits
      = (tex2typst e (.str x) o σ).2.fwdCache.hits + 1 ∧
    (tex2typst e (.str x) o (tex2typst e (.str x) o σ).2).2.fwdCache.misses
      = (tex2typst e (.str x) o σ).2.fwdCache.misses ∧
    (tex2typst e (.str x) o σ).2.fwdCache.misses = σ.fwdCache.misses + 1 := by
  obtain ⟨v, hv⟩ := hok
  obtain ⟨h1, h2, h3, h4, h5⟩ :=
    tex2typst_cached_miss_then_hit e (fwdKey x o) σ v hmiss hv hcap
  refine ⟨?_, ?_, ?_, ?_⟩
  · simp only [tex2typst_str]
    rw [h2, h1]
  · simp only [tex2typst_str]
    rw [h3]
  · simp only [tex2typst_str]
    rw [h4]
  · simp only [tex2typst_str]
    rw [h5]

/-- C1 witness: the scenario at input `"a"`, default options, fresh state. -/
theorem tex2typst_repeat_hit_witness :
    initState.fwdCache.find (fwdKey "a" noOpts) = none ∧
    (∃ v, demoCore.tex2typst "a" (fwdEngineOpts (fwdKey "a" noOpts)) = .ok v) ∧
    0 < initState.fwdCache.maxsize ∧
    ((tex2typst demoCore (.str "a") noOpts
        (tex2typst demoCore (.str "a") noOpts initState).2).1
       = (tex2typst demoCore (.str "a") noOpts initState).1 ∧
     (tex2typst demoCore (.str "a") noOpts
        (tex2typst demoCore (.str "a") noOpts initState).2).2.fwdCache.hits
       = (tex2typst demoCore (.str "a") noOpts initState).2.fwdCache.hits + 1 ∧
     (tex2typst demoCore (.str "a") noOpts
        (tex2typst demoCore (.str "a") noOpts initState).2).2.fwdCache.misses
       = (tex2typst demoCore (.str "a") noOpts initState).2.fwdCache.misses ∧
     (tex2typst demoCore (.str "a") noOpts initState).2.fwdCache.misses
       = initState.fwdCache.misses + 1) :=
  ⟨rfl, ⟨"T" ++ "a", rfl⟩, by decide,
   tex2typst_repeat_hit demoCore "a" noOpts initState rfl ⟨"T" ++ "a", rfl⟩ (by decide)⟩

/-- C2: option sets whose macro mappings hold the same (trigger, expansion)
pairs in different insertion orders normalize to the same cache key, so a
scalar call with one ordering after a (miss, successful) scalar call with
the other ordering is a cache hit. -/
theorem macro_order_same_key_hit (e : Core) (x : String) (o : ForwardOptions)
    (l₁ l₂ : Macros) (hperm : l₁.Perm l₂) (σ : SysState)
    (hmiss : σ.fwdCache.find (fwdKey x (setMacros o (some l₁))) = none)
    (hok : ∃ v, e.tex2typst x (fwdEngineOpts (fwdKey x (setMacros o (some l₁)))) = .ok v)
    (hcap : 0 < σ.fwdCache.maxsize) :
    fwdKey x (setMacros o (some l₁)) = fwdKey x (setMacros o (some l₂)) ∧
    (tex2typst e (.str x) (setMacros o (some l₂))
        (tex2typst e (.str x) (setMacros o (some l₁)) σ).2).2.fwdCache.hits
      = (tex2typst e (.str x) (setMacros o (some l₁)) σ).2.fwdCache.hits + 1 ∧
    (tex2typst e (.str x) (setMacros o (some l₂))
        (tex2typst e (.str x) (setMacros o (some l₁)) σ).2).2.fwdCache.misses
      = (tex2typst e (.str x) (setMacros o (some l₁)) σ).2.fwdCache.misses := by
  have hkey : fwdKey x (setMacros o (some l₁)) = fwdKey x (setMacros o (some l₂)) := by
    unfold fwdKey setMacros make_hashable
    simp [sortPairs_eq_of_perm hperm]
  obtain ⟨v, hv⟩ := hok
  obtain ⟨h1, h2, h3, h4, h5⟩ :=
    tex2typst_cached_miss_then_hit e (fwdKey x (setMacros o (some l₁))) σ v hmiss hv hcap
  refine ⟨hkey, ?_, ?_⟩
  · simp only [tex2typst_str]
    rw [← hkey, h3]
  · simp only [tex2typst_str]
    rw [← hkey, h4]

/-- C2 witness: `{"a":"1","b":"2"}` versus `{"b":"2","a":"1"}` at input
`"x"` on the fresh state. -/
theorem macro_order_same_key_hit_witness :
    ([(("a" : String), ("1" : String)), ("b", "2")] : Macros).Perm
        [("b", "2"), ("a", "1")] ∧
    initState.fwdCache.find
        (fwdKey "x" (setMacros noOpts (some [("a", "1"), ("b", "2")]))) = none ∧
    0 < initState.fwdCache.maxsize ∧
    (fwdKey "x" (setMacros noOpts (some [("a", "1"), ("b", "2")]))
        = fwdKey "x" (setMacros noOpts (some [("b", "2"), ("a", "1")])) ∧
     (tex2typst demoCore (.str "x") (setMacros noOpts (some [("b", "2"), ("a", "1")]))
        (tex2typst demoCore (.str "x")
          (setMacros noOpts (some [("a", "1"), ("b", "2")])) initState).2).2.fwdCache.hits
       = (tex2typst demoCore (.str "x")
          (setMacros noOpts (some [("a", "1"), ("b", "2")])) initState).2.fwdCache.hits + 1 ∧
     (tex2typst demoCore (.str "x") (setMacros noOpts (some [("b", "2"), ("a", "1")]))
        (tex2typst demoCore (.str "x")
          (setMacros noOpts (some [("a", "1"), ("b", "2")])) initState).2).2.fwdCache.misses
       = (tex2typst demoCore (.str "x")
          (setMacros noOpts (some [("a", "1"), ("b", "2")])) initState).2.fwdCache.misses) :=
  ⟨List.Perm.swap ("b", "2") ("a", "1") [],
   rfl, by decide,
   macro_order_same_key_hit demoCore "x" noOpts
     [("a", "1"), ("b", "2")] [("b", "2"), ("a", "1")]
     (List.Perm.swap ("b", "2") ("a", "1") []) initState rfl
     ⟨"T" ++ "x", rfl⟩ (by decide)⟩

/-- C3 counterexample: on the empty list the wrapper still invokes the
engine's batch entry point (the source has no early return), so the claim's
"without invoking the engine" fails on the concrete input `[]`. -/
theorem empty_list_invokes_engine :
    ¬ (tex2typst demoCore (.list []) noOpts initState).2.fwdBatchCalls
        = initState.fwdBatchCalls := by decide

/-- C3 amended: a conversion call with the empty list returns the empty
list the engine's batch entry point produces, reads and writes no cache
(the statistics of both directions are untouched) — but it does invoke the
batch entry point once, with the empty list. -/
theorem empty_list_returns_empty (e : Core) (o : ForwardOptions) (b : Option Bool)
    (σ : SysState)
    (hf : e.tex2typst_batch [] o = .ok [])
    (hb : e.typst2tex_batch [] b = .ok []) :
    tex2typst e (.list []) o σ
      = (.ok (.list []), { σ with fwdBatchCalls := σ.fwdBatchCalls + 1 }) ∧
    typst2tex e (.list []) b σ
      = (.ok (.list []), { σ with bwdBatchCalls := σ.bwdBatchCalls + 1 }) := by
  constructor
  · simp [tex2typst, hf]
  · simp [typst2tex, hb]

/-- C3 witness: the empty-list call on the demonstration engine. -/
theorem empty_list_returns_empty_witness :
    demoCore.tex2typst_batch [] noOpts = .ok [] ∧
    demoCore.typst2tex_batch [] none = .ok [] ∧
    (tex2typst demoCore (.list []) noOpts initState
       = (.ok (.list []),
          { initState with fwdBatchCalls := initState.fwdBatchCalls + 1 }) ∧
     typst2tex demoCore (.list []) none initState
       = (.ok (.list []),
          { initState with bwdBatchCalls := initState.bwdBatchCalls + 1 })) :=
  ⟨rfl, rfl, empty_list_returns_empty demoCore noOpts none initState rfl rfl⟩

/-- C4: a batch (list) call bypasses the caches entirely: afterwards the
hit count, miss count, current size and capacity of both directions'
caches — everything `cache_info` reports — are exactly as before. -/
theorem batch_bypasses_cache (e : Core) (l : List String) (o : ForwardOptions)
    (b : Option Bool) (σ : SysState) (_hne : l ≠ []) :
    (tex2typst e (.list l) o σ).2.fwdCache = σ.fwdCache ∧
    (tex2typst e (.list l) o σ).2.bwdCache = σ.bwdCache ∧
    cache_info (tex2typst e (.list l) o σ).2 = cache_info σ ∧
    (typst2tex e (.list l) b σ).2.fwdCache = σ.fwdCache ∧
    (typst2tex e (.list l) b σ).2.bwdCache = σ.bwdCache ∧
    cache_info (typst2tex e (.list l) b σ).2 = cache_info σ := by
  have h₁ : (tex2typst e (.list l) o σ).2.fwdCache = σ.fwdCache ∧
      (tex2typst e (.list l) o σ).2.bwdCache = σ.bwdCache := by
    cases hr : e.tex2typst_batch l o <;> simp [tex2typst, hr]
  have h₂ : (typst2tex e (.list l) b σ).2.fwdCache = σ.fwdCache ∧
      (typst2tex e (.list l) b σ).2.bwdCache = σ.bwdCache := by
    cases hr : e.typst2tex_batch l b <;> simp [typst2tex, hr]
  refine ⟨h₁.1, h₁.2, ?_, h₂.1, h₂.2, ?_⟩
  · unfold cache_info
    rw [h₁.1, h₁.2]
  · unfold cache_info
    rw [h₂.1, h₂.2]

/-- C4 witness: a two-element batch call in each direction on the fresh
state. -/
theorem batch_bypasses_cache_witness :
    (["a", "b"] : List String) ≠ [] ∧
    ((tex2typst demoCore (.list ["a", "b"]) noOpts initState).2.fwdCache
        = initState.fwdCache ∧
     (tex2typst demoCore (.list ["a", "b"]) noOpts initState).2.bwdCache
        = initState.bwdCache ∧
     cache_info (tex2typst demoCore (.list ["a", "b"]) noOpts initState).2
        = cache_info initState ∧
     (typst2tex demoCore (.list ["a", "b"]) none initState).2.fwdCache
        = initState.fwdCache ∧
     (typst2tex demoCore (.list ["a", "b"]) none initState).2.bwdCache
        = initState.bwdCache ∧
     cache_info (typst2tex demoCore (.list ["a", "b"]) none initState).2
        = cache_info initState) :=
  ⟨List.cons_ne_nil _ _,
   batch_bypasses_cache demoCore ["a", "b"] noOpts none initState
     (List.cons_ne_nil _ _)⟩

/-- C5: `clear_cache` zeroes size, hits and misses of both directions while
keeping each capacity, and a scalar conversion issued right after the clear
is a miss again: it bumps the miss counter from 0 to 1 and invokes the
engine once more, in either direction. -/
theorem clear_cache_resets (e : Core) (x y : String) (o : ForwardOptions)
    (b : Option Bool) (σ : SysState) :
    cache_info (clear_cache σ)
      = (⟨0, 0, σ.fwdCache.maxsize, 0⟩, ⟨0, 0, σ.bwdCache.maxsize, 0⟩) ∧
    (tex2typst e (.str x) o (clear_cache σ)).2.fwdCache.misses = 1 ∧
    (tex2typst e (.str x) o (clear_cache σ)).2.fwdCache.hits = 0 ∧
    (tex2typst e (.str x) o (clear_cache σ)).2.fwdScalarCalls
      = σ.fwdScalarCalls + 1 ∧
    (typst2tex e (.str y) b (clear_cache σ)).2.bwdCache.misses = 1 ∧
    (typst2tex e (.str y) b (clear_cache σ)).2.bwdCache.hits = 0 ∧
    (typst2tex e (.str y) b (clear_cache σ)).2.bwdScalarCalls
      = σ.bwdScalarCalls + 1 := by
  obtain ⟨hm, hh, hc⟩ :=
    tex2typst_cached_miss_stats e (fwdKey x o) (clear_cache σ) rfl
  obtain ⟨hm', hh', hc'⟩ :=
    typst2tex_cached_miss_stats e ⟨y, b⟩ (clear_cache σ) rfl
  refine ⟨rfl, ?_, ?_, ?_, ?_, ?_, ?_⟩
  · rw [tex2typst_str]; simpa using hm
  · rw [tex2typst_str]; simpa using hh
  · rw [tex2typst_str]; simpa using hc
  · rw [typst2tex_str]; simpa using hm'
  · rw [typst2tex_str]; simpa using hh'
  · rw [typst2tex_str]; simpa using hc'

/-- C6: when the engine fails on a scalar input (looked up as a miss), the
conversion operation — in either direction — propagates the engine's error
to the caller verbatim, the cache's entry list is exactly what it was, the
hit counter is unchanged, only the single miss recorded by the lookup is
added, and the other direction's cache is untouched. -/
theorem engine_failure_not_cached (e : Core) (x y : String) (o : ForwardOptions)
    (b : Option Bool) (σ : SysState) (m m' : String)
    (hmiss : σ.fwdCache.find (fwdKey x o) = none)
    (herr : e.tex2typst x (fwdEngineOpts (fwdKey x o)) = .error m)
    (hmiss' : σ.bwdCache.find ⟨y, b⟩ = none)
    (herr' : e.typst2tex y b = .error m') :
    (tex2typst e (.str x) o σ).1 = .error (.conversionError m) ∧
    (tex2typst e (.str x) o σ).2.fwdCache.entries = σ.fwdCache.entries ∧
    (tex2typst e (.str x) o σ).2.fwdCache.hits = σ.fwdCache.hits ∧
    (tex2typst e (.str x) o σ).2.fwdCache.misses = σ.fwdCache.misses + 1 ∧
    (tex2typst e (.str x) o σ).2.bwdCache = σ.bwdCache ∧
    (typst2tex e (.str y) b σ).1 = .error (.conversionError m') ∧
    (typst2tex e (.str y) b σ).2.bwdCache.entries = σ.bwdCache.entries ∧
    (typst2tex e (.str y) b σ).2.bwdCache.hits = σ.bwdCache.hits ∧
    (typst2tex e (.str y) b σ).2.bwdCache.misses = σ.bwdCache.misses + 1 ∧
    (typst2tex e (.str y) b σ).2.fwdCache = σ.fwdCache := by
  have h := tex2typst_cached_of_miss_err e (fwdKey x o) σ m hmiss herr
  have h' := typst2tex_cached_of_miss_err e ⟨y, b⟩ σ m' hmiss' herr'
  refine ⟨?_, ?_, ?_, ?_, ?_, ?_, ?_, ?_, ?_, ?_⟩
  · rw [tex2typst_str, h]; rfl
  · rw [tex2typst_str, h]
  · rw [tex2typst_str, h]
  · rw [tex2typst_str, h]
  · rw [tex2typst_str, h]
  · rw [typst2tex_str, h']; rfl
  · rw [typst2tex_str, h']
  · rw [typst2tex_str, h']
  · rw [typst2tex_str, h']
  · rw [typst2tex_str, h']

/-- C6 witness: the always-failing engine at inputs `"a"` (forward) and
`"u"` (backward) on the fresh state. -/
theorem engine_failure_not_cached_witness :
    initState.fwdCache.find (fwdKey "a" noOpts) = none ∧
    failCore.tex2typst "a" (fwdEngineOpts (fwdKey "a" noOpts))
      = .error "Conversion failed: bad input" ∧
    initState.bwdCache.find ⟨"u", none⟩ = none ∧
    failCore.typst2tex "u" none = .error "Conversion failed: bad input" ∧
    ((tex2typst failCore (.str "a") noOpts initState).1
       = .error (.conversionError "Conversion failed: bad input") ∧
     (tex2typst failCore (.str "a") noOpts initState).2.fwdCache.entries
       = initState.fwdCache.entries ∧
     (tex2typst failCore (.str "a") noOpts initState).2.fwdCache.hits
       = initState.fwdCache.hits ∧
     (tex2typst failCore (.str "a") noOpts initState).2.fwdCache.misses
       = initState.fwdCache.misses + 1 ∧
     (tex2typst failCore (.str "a") noOpts initState).2.bwdCache
       = initState.bwdCache ∧
     (typst2tex failCore (.str "u") none initState).1
       = .error (.conversionError "Conversion failed: bad input") ∧
     (typst2tex failCore (.str "u") none initState).2.bwdCache.entries
       = initState.bwdCache.entries ∧
     (typst2tex failCore (.str "u") none initState).2.bwdCache.hits
       = initState.bwdCache.hits ∧
     (typst2tex failCore (.str "u") none initState).2.bwdCache.misses
       = initState.bwdCache.misses + 1 ∧
     (typst2tex failCore (.str "u") none initState).2.fwdCache
       = initState.fwdCache) :=
  ⟨rfl, rfl, rfl, rfl,
   engine_failure_not_cached failCore "a" "u" noOpts none initState
     "Conversion failed: bad input" "Conversion failed: bad input"
     rfl rfl rfl rfl⟩

/-- C7: an input that is neither a `str` nor a `list` makes both conversion
operations raise a `TypeError` naming the offending type, and the whole
state — caches of both directions and every engine-call counter — is left
exactly as it was. -/
theorem type_mismatch_rejected (e : Core) (x : PyValue) (o : ForwardOptions)
    (b : Option Bool) (σ : SysState)
    (hs : x.isStr = false) (hl : x.isList = false) :
    tex2typst e x o σ
      = (.error (.typeError ("Expected str or list, got " ++ x.typeName)), σ) ∧
    typst2tex e x b σ
      = (.error (.typeError ("Expected str or list, got " ++ x.typeName)), σ) := by
  cases x with
  | str s => simp [PyValue.isStr] at hs
  | list l => simp [PyValue.isList] at hl
  | int n => exact ⟨rfl, rfl⟩
  | dict d => exact ⟨rfl, rfl⟩
  | tuple l => exact ⟨rfl, rfl⟩

/-- C7 witness: the integer input `123` against both operations. -/
theorem type_mismatch_rejected_witness :
    (PyValue.int 123).isStr = false ∧
    (PyValue.int 123).isList = false ∧
    (tex2typst demoCore (.int 123) noOpts initState
       = (.error (.typeError ("Expected str or list, got "
            ++ (PyValue.int 123).typeName)), initState) ∧
     typst2tex demoCore (.int 123) none initState
       = (.error (.typeError ("Expected str or list, got "
            ++ (PyValue.int 123).typeName)), initState)) :=
  ⟨rfl, rfl,
   type_mismatch_rejected demoCore (.int 123) noOpts none initState rfl rfl⟩

/-- C9: `_make_hashable` keeps an absent macro mapping (`None`) and a
supplied-but-empty one (`{}`) apart, so the two calls index different cache
entries: with a fixed input text, a scalar call with the empty mapping
following a scalar call with no mapping is a miss (miss counter bumps, hit
counter does not). -/
theorem absent_vs_empty_macros_miss (e : Core) (x : String) (o : ForwardOptions)
    (σ : SysState)
    (hnone : o.custom_tex_macros = none)
    (hmiss : σ.fwdCache.find (fwdKey x (setMacros o (some []))) = none) :
    fwdKey x o ≠ fwdKey x (setMacros o (some [])) ∧
    (tex2typst e (.str x) (setMacros o (some []))
        (tex2typst e (.str x) o σ).2).2.fwdCache.misses
      = (tex2typst e (.str x) o σ).2.fwdCache.misses + 1 ∧
    (tex2typst e (.str x) (setMacros o (some []))
        (tex2typst e (.str x) o σ).2).2.fwdCache.hits
      = (tex2typst e (.str x) o σ).2.fwdCache.hits := by
  have hkeys : fwdKey x o ≠ fwdKey x (setMacros o (some [])) := by
    intro h
    have := congrArg FwdKey.custom_tex_macros h
    rw [fwdKey, fwdKey, hnone] at this
    simp [make_hashable, setMacros] at this
  have hstill :
      (tex2typst_cached e (fwdKey x o) σ).2.fwdCache.find
          (fwdKey x (setMacros o (some []))) = none :=
    tex2typst_cached_preserves_none e (fwdKey x o) σ hkeys hmiss
  obtain ⟨hm, hh, _⟩ :=
    tex2typst_cached_miss_stats e (fwdKey x (setMacros o (some [])))
      (tex2typst_cached e (fwdKey x o) σ).2 hstill
  constructor
  · exact hkeys
  constructor
  · simp only [tex2typst_str]
    exact hm
  · simp only [tex2typst_str]
    exact hh

/-- C9 witness: no mapping, then the empty mapping, at input `"a"` on the
fresh state. -/
theorem absent_vs_empty_macros_miss_witness :
    noOpts.custom_tex_macros = none ∧
    initState.fwdCache.find (fwdKey "a" (setMacros noOpts (some []))) = none ∧
    (fwdKey "a" noOpts ≠ fwdKey "a" (setMacros noOpts (some [])) ∧
     (tex2typst demoCore (.str "a") (setMacros noOpts (some []))
        (tex2typst demoCore (.str "a") noOpts initState).2).2.fwdCache.misses
       = (tex2typst demoCore (.str "a") noOpts initState).2.fwdCache.misses + 1 ∧
     (tex2typst demoCore (.str "a") (setMacros noOpts (some []))
        (tex2typst demoCore (.str "a") noOpts initState).2).2.fwdCache.hits
       = (tex2typst demoCore (.str "a") noOpts initState).2.fwdCache.hits) :=
  ⟨rfl, rfl,
   absent_vs_empty_macros_miss demoCore "a" noOpts initState rfl rfl⟩

/-- C10: only the concrete `list` type takes the batch path: a tuple of
strings — an ordered sequence of text — is rejected by both operations with
the `TypeError` naming `tuple`, the state untouched. -/
theorem tuple_input_rejected (e : Core) (l : List String) (o : ForwardOptions)
    (b : Option Bool) (σ : SysState) :
    tex2typst e (.tuple l) o σ
      = (.error (.typeError ("Expected str or list, got " ++ "tuple")), σ) ∧
    typst2tex e (.tuple l) b σ
      = (.error (.typeError ("Expected str or list, got " ++ "tuple")), σ) :=
  ⟨rfl, rfl⟩

/-- A successful spec-modelled batch is the elementwise scalar conversion:
same length, and entry `i` of the output is the scalar result on entry `i`
of the input. -/
theorem specBatch_ok (f : String → ForwardOptions → Except String String) :
    ∀ (xs : List String) (ys : List String) (o : ForwardOptions),
      SpecBatch f xs o = .ok ys →
      ys.length = xs.length ∧
      ∀ i (hi : i < xs.length) (hj : i < ys.length),
        f (xs.get ⟨i, hi⟩) o = .ok (ys.get ⟨i, hj⟩) := by
  intro xs
  induction xs with
  | nil =>
      intro ys o h
      cases h
      exact ⟨rfl, fun i hi => absurd hi (Nat.not_lt_zero i)⟩
  | cons x xs ih =>
      intro ys o h
      unfold SpecBatch at h
      cases hx : f x o with
      | error m => rw [hx] at h; exact absurd h (by simp)
      | ok y =>
          rw [hx] at h
          cases hr : SpecBatch f xs o with
          | error m => rw [hr] at h; exact absurd h (by simp)
          | ok ys' =>
              rw [hr] at h
              have hys : ys = y :: ys' := by
                cases h; rfl
              subst hys
              obtain ⟨hlen, hget⟩ := ih ys' o hr
              refine ⟨by simpa using hlen, ?_⟩
              intro i hi hj
              cases i with
              | zero => simpa using hx
              | succ n =>
                  have hn : n < xs.length := Nat.lt_of_succ_lt_succ hi
                  have hn' : n < ys'.length := Nat.lt_of_succ_lt_succ hj
                  simpa using hget n hn hn'

/-- The option set the cached scalar path hands the engine denotes the
same option set the caller supplied. -/
theorem semEq_engineOpts (t : String) (o : ForwardOptions) :
    SemEq (fwdEngineOpts (fwdKey t o)) o := by
  refine ⟨rfl, rfl, rfl, rfl, rfl, rfl, ?_⟩
  show canonMacros (truthyMacros (make_hashable o.custom_tex_macros))
      = canonMacros o.custom_tex_macros
  cases hmac : o.custom_tex_macros with
  | none => rfl
  | some l =>
      show canonMacros (truthyMacros (some (sortPairs l))) = canonMacros (some l)
      cases hs : sortPairs l with
      | nil =>
          show canonMacros none = canonMacros (some l)
          show sortPairs [] = sortPairs l
          rw [← hs]
          exact sortPairs_idem l
      | cons a t' =>
          show canonMacros (some (a :: t')) = canonMacros (some l)
          show sortPairs (a :: t') = sortPairs l
          rw [← hs, sortPairs_idem]

/-- C8: a batch conversion that succeeds returns exactly one output per
input, in order, and each output equals what the scalar conversion of the
corresponding input under the same options returns — given the engine's
batch entry point is the elementwise all-or-nothing map of its scalar one,
the engine reads options semantically, and the cache is coherent with the
engine. -/
theorem batch_matches_scalar (e : Core) (o : ForwardOptions) (l ys : List String)
    (σ : SysState)
    (hb : ∀ xs o', e.tex2typst_batch xs o' = SpecBatch e.tex2typst xs o')
    (hm : MacroAgnostic e.tex2typst)
    (hc : FwdCoherent e σ)
    (hok : (tex2typst e (.list l) o σ).1 = .ok (.list ys)) :
    ys.length = l.length ∧
    ∀ i (hi : i < l.length) (hj : i < ys.length),
      (tex2typst e (.str (l.get ⟨i, hi⟩)) o σ).1 = .ok (.str (ys.get ⟨i, hj⟩)) := by
  have hbatch : e.tex2typst_batch l o = .ok ys := by
    cases hr : e.tex2typst_batch l o with
    | ok outs =>
        simp only [tex2typst, hr] at hok
        simpa using hok
    | error m =>
        simp only [tex2typst, hr] at hok
        exact absurd hok (by simp)
  obtain ⟨hlen, hget⟩ := specBatch_ok e.tex2typst l ys o (by rw [← hb]; exact hbatch)
  refine ⟨hlen, ?_⟩
  intro i hi hj
  have hsem : e.tex2typst (l.get ⟨i, hi⟩)
      (fwdEngineOpts (fwdKey (l.get ⟨i, hi⟩) o))
      = e.tex2typst (l.get ⟨i, hi⟩) o :=
    hm _ _ _ (semEq_engineOpts (l.get ⟨i, hi⟩) o)
  have heng : e.tex2typst (l.get ⟨i, hi⟩)
      (fwdEngineOpts (fwdKey (l.get ⟨i, hi⟩) o)) = .ok (ys.get ⟨i, hj⟩) := by
    rw [hsem]; exact hget i hi hj
  cases hf : σ.fwdCache.find (fwdKey (l.get ⟨i, hi⟩) o) with
  | some v =>
      have hv : e.tex2typst (l.get ⟨i, hi⟩)
          (fwdEngineOpts (fwdKey (l.get ⟨i, hi⟩) o)) = .ok v := hc _ v hf
      have : v = ys.get ⟨i, hj⟩ := by
        have := hv.symm.trans heng
        simpa using this
      rw [tex2typst_str, tex2typst_cached_of_hit e _ σ v hf, this]
      rfl
  | none =>
      rw [tex2typst_str,
        tex2typst_cached_of_miss_ok e _ σ (ys.get ⟨i, hj⟩) hf heng]
      rfl

/-- C8 witness: the two-element batch `["a", "b"]` on the spec-modelled
demonstration engine, its two entries matching the scalar calls. -/
theorem batch_matches_scalar_witness :
    (tex2typst specDemoCore (.list ["a", "b"]) noOpts initState).1
      = .ok (.list ["T" ++ "a", "T" ++ "b"]) ∧
    (["T" ++ "a", "T" ++ "b"] : List String).length
      = (["a", "b"] : List String).length ∧
    (tex2typst specDemoCore (.str "a") noOpts initState).1
      = .ok (.str ("T" ++ "a")) ∧
    (tex2typst specDemoCore (.str "b") noOpts initState).1
      = .ok (.str ("T" ++ "b")) :=
  ⟨rfl,
   (batch_matches_scalar specDemoCore noOpts ["a", "b"] ["T" ++ "a", "T" ++ "b"]
      initState (fun _ _ => rfl) (fun _ _ _ _ => rfl)
      (fun _ v h => Option.noConfusion h) rfl).1,
   (batch_matches_scalar specDemoCore noOpts ["a", "b"] ["T" ++ "a", "T" ++ "b"]
      initState (fun _ _ => rfl) (fun _ _ _ _ => rfl)
      (fun _ v h => Option.noConfusion h) rfl).2 0 (by decide) (by decide),
   (batch_matches_scalar specDemoCore noOpts ["a", "b"] ["T" ++ "a", "T" ++ "b"]
      initState (fun _ _ => rfl) (fun _ _ _ _ => rfl)
      (fun _ v h => Option.noConfusion h) rfl).2 1 (by decide) (by decide)⟩

end T2T
